import Mathlib

/-!
Shallow embedding of the netquery multi-device execution engine and its
consumers, translated from:

* `src/netquery/core.py` — `query_machines`, the generator producing one
  result envelope per (source file, group, label) work item;
* `src/netquery/exceptions.py` — the `NetqueryException` hierarchy;
* `src/netquery/utils_new.py` — `validate_groups` group expansion;
* `src/netquery/main.py` — the CLI renderer: result-row construction,
  `DataFrame.sort_values`, the dedup-masking of repeated leading columns,
  column dropping, and the export path;
* `src/netquery/ui/web/server.py` — the SSE streaming wrapper `web_query`
  with its cancellation checks.

Python dictionaries are modelled as insertion-ordered association lists
(`List (key × value)`); the dict invariant "keys are unique" becomes `Nodup`
hypotheses where a proof needs it.  Exceptions are modelled as values: an
external collaborator call either returns a value or an exception, and the
engine's `try/except` becomes a total function on those.  External
collaborators (the netmiko session library, `re.Pattern`, reverse DNS) are
parameters: a behaviour record per device, a search function, a hostname
function.
-/

namespace Netquery

/-- Device descriptor (one `machine` dict of the inventory).  Only the fields
the engine reads are modelled: the mandatory `host` and the optional
per-device `device_type` override merged over the run-wide default. -/
structure Machine where
  host : String
  device_type : Option String := none
deriving Repr, DecidableEq

/-- One source file of the inventory: group name ↦ (device label ↦ machine),
in insertion order (`Machines` in utils_new.py). -/
abbrev FileMap := List (String × List (String × Machine))

/-- The whole inventory: source-file name ↦ file
(`MultipleMachines` in utils_new.py). -/
abbrev MultipleMachines := List (String × FileMap)

/-- Python exception values that can cross the engine's `try/except`
boundary, each carrying its message (`str(e)`). -/
inductive PyExc where
  | netmikoAuth (msg : String)
  | netmikoTimeout (msg : String)
  | indexError
  | generic (msg : String)
deriving Repr, DecidableEq

/-- `str()` of the raw Python exceptions above. -/
def PyExc.toStr : PyExc → String
  | .netmikoAuth m => m
  | .netmikoTimeout m => m
  | .indexError => "list index out of range"
  | .generic m => m

/-- The `NetqueryException` subclasses (exceptions.py) that the engine
stores in the `result` slot. -/
inductive NqExc where
  | timeout
  | unknownDeviceType
  | unauthorized
  | noMatches (raw : String)
deriving Repr, DecidableEq

/-- `__str__` of each `NetqueryException` subclass (exceptions.py lines
4-21): every one of them currently returns the placeholder `"exception"`
(each carries a `TODO: Change this` comment in the source). -/
def NqExc.toStr : NqExc → String
  | .timeout => "exception"
  | .unknownDeviceType => "exception"
  | .unauthorized => "exception"
  | .noMatches _ => "exception"

/-- The value held by the `result` variable of `query_machines`: a plain
string, one of netquery's own exception objects, or a raw caught Python
exception (`except Exception as e: result = e`). -/
inductive ResultVal where
  | str (s : String)
  | nq (e : NqExc)
  | exc (e : PyExc)
deriving Repr, DecidableEq

/-- Result of invoking an external collaborator: a returned value or a
raised exception. -/
inductive ExtCall (α : Type) where
  | ok (a : α)
  | exn (e : PyExc)
deriving Repr, DecidableEq

/-- Raw return value of `send_command` / `send_multiline`: plain text, or a
structured (list/dict) value carried here by its canonical `json.dumps`
serialisation `dump`. -/
inductive SendResult where
  | text (s : String)
  | structured (dump : String)
deriving Repr, DecidableEq

/-- `if isinstance(result, (list, dict)): result = json.dumps(result)`
(core.py lines 114-115): the canonical text form of a dispatch result. -/
def SendResult.canon : SendResult → String
  | .text s => s
  | .structured d => d

/-- Observable behaviour of the session-protocol collaborator for one
device: the autodetection probe, session open, command dispatch, and the
bytes it writes into the in-memory `session_log`. -/
structure SessionBehavior where
  autodetect : ExtCall (Option String)
  openSession : Option PyExc
  send : ExtCall SendResult
  log : String := ""

/-- External `re.Pattern` collaborator: `search` returns `match.group()` —
the first match's span — or `none` when the regex does not match. -/
structure RePattern where
  search : String → Option String

/-- Python truthiness of the `device_type` slot: `None` and `""` are falsy
(`if not device["device_type"]`, core.py line 69). -/
def dtFalsy : Option String → Bool
  | none => true
  | some s => s.isEmpty

/-- The `device_type` of the merged `device` dict (core.py lines 54-62):
the machine's own entry wins over the run-wide default. -/
def mergedDeviceType (default_device_type : String) (m : Machine) : String :=
  m.device_type.getD default_device_type

/-- The device-type resolution step (core.py lines 65-66): when the merged
slot is the `"autodetect"` sentinel the detection collaborator runs and its
result replaces the slot; otherwise the slot is kept. -/
def resolveDeviceType (merged : String) (sb : SessionBehavior) :
    ExtCall (Option String) :=
  if merged == "autodetect" then sb.autodetect else .ok (some merged)

/-- The `device_type` value stored in the yielded envelope (core.py line
139): when autodetection raised, the assignment never happened and the slot
still holds the sentinel. -/
def finalDeviceType (merged : String) (sb : SessionBehavior) : Option String :=
  if merged == "autodetect" then
    match sb.autodetect with
    | .ok d => d
    | .exn _ => some merged
  else some merged

/-- The `except` clauses of `query_machines` (core.py lines 126-131), in
source order: `NetmikoAuthenticationException` ↦ unauthorized,
`NetmikoTimeoutException` ↦ timeout, any other exception is stored as-is. -/
def catchExc : PyExc → ResultVal
  | .netmikoAuth _ => .nq .unauthorized
  | .netmikoTimeout _ => .nq .timeout
  | .indexError => .exc .indexError
  | .generic m => .exc (.generic m)

/-- The "Filter output" block (core.py lines 117-124): when a regex is
configured, `search` it against the canonical result text; a match narrows
the result to the first match's span, no match stores
`NetqueryNoMatchesException` carrying the unmodified text. -/
def filterOutput (output_regex : Option RePattern) (result : String) :
    ResultVal :=
  match output_regex with
  | none => .str result
  | some p =>
    match p.search result with
    | some m => .str m
    | none => .nq (.noMatches result)

/-- The per-device `try` body of `query_machines` (core.py lines 64-124)
together with its `except` clauses (126-131).  Returns the final `result`
value and whether the dispatch collaborator (`send_command` /
`send_multiline`) was invoked.  Noteworthy translations of the source:

* `len(cmds[0]) == 0` raises `IndexError` when `cmds` is the empty list —
  caught by the generic `except Exception` clause;
* in the single-command branch the argument expression
  `prompt_patterns[0]` likewise raises `IndexError` on an empty
  `prompt_patterns`, before `send_command` is ever invoked;
* `textfsm_template` only changes how the dispatch call is parameterised,
  which is already absorbed by the collaborator behaviour `sb.send`. -/
def runDevice (default_device_type : String) (machine : Machine)
    (cmds prompt_patterns : List String) (textfsm_template : Option String)
    (output_regex : Option RePattern) (sb : SessionBehavior) :
    ResultVal × Bool :=
  match resolveDeviceType (mergedDeviceType default_device_type machine) sb with
  | .exn e => (catchExc e, false)
  | .ok dt =>
    if dtFalsy dt then (.nq .unknownDeviceType, false)
    else
      match sb.openSession with
      | some e => (catchExc e, false)
      | none =>
        match cmds with
        | [] => (catchExc .indexError, false)
        | c0 :: rest =>
          if c0.isEmpty then (.str "✅ Accessible", false)
          else if rest.isEmpty && prompt_patterns.isEmpty then
            (catchExc .indexError, false)
          else
            match sb.send with
            | .exn e => (catchExc e, true)
            | .ok res => (filterOutput output_regex res.canon, true)

/-- One result envelope, as yielded by `query_machines` (core.py lines
133-143).  The `i / len(work)` progress float is carried as the exact pair
(numerator, denominator). -/
structure Envelope where
  filename : String
  group : String
  label : String
  hostname : String
  ip : String
  device_type : Option String
  result : ResultVal
  log : String
  progressNum : Nat
  progressDen : Nat
deriving Repr, DecidableEq

/-- A flattened work item of `query_machines`:
(filename, group, label, machine). -/
abbrev WorkItem := String × String × String × Machine

/-- The flattened `work` list (core.py lines 33-39):
`[(filename, group, label, machine) for filename in machines for group in
groups if group in machines[filename] for label, machine in
machines[filename][group].items()]`. -/
def workList (machines : MultipleMachines) (groups : List String) :
    List WorkItem :=
  machines.flatMap fun fe =>
    groups.flatMap fun group =>
      match fe.2.lookup group with
      | none => []
      | some gm => gm.map fun lm => (fe.1, group, lm.1, lm.2)

/-- Builds the envelope yielded for the work item at (0-based) position `i`
of a `work` list of length `total` (core.py lines 41, 52-62, 133-143).
`getHostname` is the reverse-DNS collaborator (`get_hostname`), `beh` gives
the session collaborator's behaviour per device. -/
def mkEnvelope (default_device_type : String)
    (cmds prompt_patterns : List String) (textfsm_template : Option String)
    (output_regex : Option RePattern) (getHostname : String → String)
    (beh : String → String → String → SessionBehavior)
    (total i : Nat) (w : WorkItem) : Envelope :=
  let sb := beh w.1 w.2.1 w.2.2.1
  let machine := w.2.2.2
  let merged := mergedDeviceType default_device_type machine
  { filename := w.1
    group := w.2.1
    label := w.2.2.1
    hostname := getHostname machine.host
    ip := machine.host
    device_type := finalDeviceType merged sb
    result := (runDevice default_device_type machine cmds prompt_patterns
        textfsm_template output_regex sb).1
    log := sb.log
    progressNum := i + 1
    progressDen := total }

/-- The generator `query_machines` (core.py lines 21-143), run to
completion: one envelope per work item, in work-list order.  `username` and
`password` only flow into the merged device dict consumed by the session
collaborator, which is already abstracted by `beh`. -/
def query_machines (machines : MultipleMachines)
    (username password : String) (default_device_type : String)
    (groups : List String) (cmds prompt_patterns : List String)
    (textfsm_template : Option String) (output_regex : Option RePattern)
    (getHostname : String → String)
    (beh : String → String → String → SessionBehavior) : List Envelope :=
  let _ := username
  let _ := password
  let work := workList machines groups
  work.enum.map fun ie =>
    mkEnvelope default_device_type cmds prompt_patterns textfsm_template
      output_regex getHostname beh work.length ie.1 ie.2

/-- The (source, group, label) identity of an envelope. -/
def Envelope.toTriple (e : Envelope) : String × String × String :=
  (e.filename, e.group, e.label)

/-- The (source, group, label) identity of a work item. -/
def WorkItem.toTriple (w : WorkItem) : String × String × String :=
  (w.1, w.2.1, w.2.2.1)

/-! ### Group expansion (`validate_groups`, utils_new.py lines 85-107;
the CLI twin in utils.py lines 165-192 has the same logic over
`ctx.params["machines"]`). -/

/-- How `validate_groups` can fail: the `KeyError` raised for a group absent
from every file, and the `IndexError` that `groups[0]` raises on an empty
list. -/
inductive GroupsError where
  | unknownGroup
  | indexError
deriving Repr, DecidableEq

/-- `set([group for file in machines.values() for group in file.keys()])`
(utils_new.py line 97), as a duplicate-free list.  Python materialises the
set in an unspecified iteration order; all claims about it are set-level, so
the `dedup` order is immaterial. -/
def allGroupsList (machines : MultipleMachines) : List String :=
  (machines.flatMap fun fe => fe.2.map Prod.fst).dedup

/-- `validate_groups` (utils_new.py lines 85-107): expand `"all"` — detected
by looking only at `groups[0]` — to the union of group names, otherwise
require every requested group to be present in some file. -/
def validate_groups (machines : MultipleMachines) (groups : List String) :
    Except GroupsError (List String) :=
  match groups with
  | [] => .error .indexError
  | g0 :: _ =>
    if g0 == "all" then .ok (allGroupsList machines)
    else if groups.all fun g => machines.any fun fe => (fe.2.lookup g).isSome
    then .ok groups
    else .error .unknownGroup

/-! ### String order.  Python compares strings by Unicode code points,
lexicographically; pandas `sort_values` on string columns uses the same
comparison.  Modelled here as executable `Bool` comparisons on
`String.data`. -/

/-- Python `<` on strings: strict lexicographic order by code point. -/
def charsLt : List Char → List Char → Bool
  | _, [] => false
  | [], _ :: _ => true
  | a :: as, b :: bs =>
    if a.toNat < b.toNat then true
    else if b.toNat < a.toNat then false
    else charsLt as bs

/-- Python `<` on strings. -/
def strLt (a b : String) : Bool := charsLt a.data b.data

/-- Lexicographic "≤" on tuples of strings (pandas multi-column ascending
sort order). -/
def lexLe : List String → List String → Bool
  | [], _ => true
  | _ :: _, [] => false
  | a :: as, b :: bs =>
    if strLt a b then true
    else if strLt b a then false
    else lexLe as bs

/-! ### CLI renderer (main.py).  The CLI builds one eight-column row per
device (lines 276-287), sorts (302-306), masks repeated leading values for
display (308-316), drops columns (318-322) and exports the unmasked frame
(347-361). -/

/-- One row of the CLI results list (main.py lines 276-287), in DataFrame
column names; `result` is already a display string there. -/
structure Row where
  file : String
  group : String
  label : String
  hostname : String
  ip : String
  deviceType : String
  result : String
  log : String
deriving Repr, DecidableEq

/-- The sort key of `df.sort_values(["Result", "File", "Group", "Label",
"Hostname", "IP", "Device Type"])` (main.py lines 302-304). -/
def sortKey (r : Row) : List String :=
  [r.result, r.file, r.group, r.label, r.hostname, r.ip, r.deviceType]

/-- Row comparison used by the sort: ascending lexicographic on the key. -/
def rowLe (a b : Row) : Bool := lexLe (sortKey a) (sortKey b)

/-- `df.sort_values(...)` (main.py lines 302-306).  A stable merge sort;
pandas' default quicksort may permute rows that are equal on all seven key
columns (they can then differ only in `Log`), which no claim observes. -/
def sortRows (rows : List Row) : List Row := rows.mergeSort rowLe

/-- The masking placeholder written into duplicated display cells
(main.py lines 310-316): the two-character string of two apostrophes. -/
def maskStr : String := String.mk (List.replicate 2 (Char.ofNat 39))

/-- A display row of the cleaned table: the `Log` column is dropped
(main.py line 318). -/
structure DisplayRow where
  result : String
  file : String
  group : String
  label : String
  hostname : String
  ip : String
  deviceType : String
deriving Repr, DecidableEq

/-- The "clean table for display" transform (main.py lines 308-318):
* `Result` is masked when `df_clean["Result"].duplicated()` holds — i.e.
  the value already occurred in an earlier row;
* `File` is masked when duplicated within its `groupby("Result")` group —
  i.e. some earlier row agrees on `Result` and `File`;
* `Group` is masked when duplicated within its `groupby(["Result","File"])`
  group; masks are computed from the unmasked frame `df`. -/
def cleanRows (rows : List Row) : List DisplayRow :=
  rows.enum.map fun ir =>
    let r := ir.2
    let before := rows.take ir.1
    { result :=
        if before.any fun p => p.result == r.result then maskStr else r.result
      file :=
        if before.any fun p => p.result == r.result && p.file == r.file then
          maskStr
        else r.file
      group :=
        if before.any fun p =>
            p.result == r.result && p.file == r.file && p.group == r.group
        then maskStr
        else r.group
      label := r.label
      hostname := r.hostname
      ip := r.ip
      deviceType := r.deviceType }

/-- The display cells of a cleaned row after the column-dropping rule
(main.py lines 319-322): `File` is dropped when exactly one source file was
queried, `Group` when exactly one group. -/
def displayCells (numFiles numGroups : Nat) (r : DisplayRow) : List String :=
  [r.result]
    ++ (if numFiles == 1 then [] else [r.file])
    ++ (if numGroups == 1 then [] else [r.group])
    ++ [r.label, r.hostname, r.ip, r.deviceType]

/-- The column headers of the displayed table after dropping
(main.py lines 318-322, 330-332). -/
def headerCells (numFiles numGroups : Nat) : List String :=
  ["Result"]
    ++ (if numFiles == 1 then [] else ["File"])
    ++ (if numGroups == 1 then [] else ["Group"])
    ++ ["Label", "Hostname", "IP", "Device Type"]

/-- The full displayed table: sort, mask, drop columns. -/
def displayTable (numFiles numGroups : Nat) (rows : List Row) :
    List (List String) :=
  (cleanRows (sortRows rows)).map (displayCells numFiles numGroups)

/-- The rows serialised by every export writer (main.py lines 347-361): the
sorted but unmasked DataFrame `df` — `df.to_html` / `to_csv` / `to_json` /
`to_string` all receive `df`, never `df_clean`. -/
def exportRows (rows : List Row) : List Row := sortRows rows

/-- The CLI `result` display string for a timed-out device
(main.py line 263). -/
def cliTimeoutStr : String := "⌛ Timeout"

/-- The CLI `result` display string for an unauthorized device
(main.py line 257). -/
def cliUnauthorizedStr : String := "⛔ Unauthorized"

/-- The CLI `result` display string for the connectivity probe
(main.py line 198). -/
def cliAccessibleStr : String := "✅ Accessible"

/-! ### Web streaming wrapper (`web_query`, server.py lines 40-64) and the
per-stream cancellation (`stopStream`, lines 141-146). -/

/-- `str(row["result"])` coercion applied before serialising an event
(server.py lines 52-53): an `Exception` result is replaced by its string
form; plain strings pass through unchanged. -/
def coerceResult : ResultVal → String
  | .str s => s
  | .nq e => e.toStr
  | .exc e => e.toStr

/-- The `result` field of the JSON payload of a streamed event. -/
def eventPayloadResult (env : Envelope) : String := coerceResult env.result

/-- The event-forwarding loop of `web_query` (server.py lines 48-55),
started at check index `i`.  Each iteration of `async for` first pulls the
next row from the generator — resuming `query_machines`, i.e. performing the
next device's session work — and then evaluates
`await req.is_disconnected() or event.is_set()`, breaking or forwarding.
`disconnected k` / `stopSet k` give the two cancellation sources as observed
by the `k`-th check.  Returns the forwarded rows and how many rows were
pulled from the generator. -/
def streamLoop (disconnected stopSet : Nat → Bool) :
    List Envelope → Nat → List Envelope × Nat
  | [], _ => ([], 0)
  | r :: rest, i =>
    if disconnected i || stopSet i then ([], 1)
    else
      let p := streamLoop disconnected stopSet rest (i + 1)
      (r :: p.1, p.2 + 1)

/-- Smallest index `i` with `start ≤ i < start + fuel` at which `c` holds,
or `start + fuel` when `c` holds nowhere in that range. -/
def firstTrue (c : Nat → Bool) : Nat → Nat → Nat
  | start, 0 => start
  | start, fuel + 1 => if c start then start else firstTrue c (start + 1) fuel

/-- The display-masking rule as the spec states it, for comparison with the
code's `cleanRows`: a cell of the leading prefix (result, then file, then
group) is masked iff every column up to and including it is identical to
the immediately preceding sorted row; the first row is never masked. -/
def adjacentMaskRows (rows : List Row) : List DisplayRow :=
  rows.enum.map fun ir =>
    let r := ir.2
    match ir.1, rows[ir.1 - 1]? with
    | 0, _ =>
      ⟨r.result, r.file, r.group, r.label, r.hostname, r.ip, r.deviceType⟩
    | Nat.succ _, none =>
      ⟨r.result, r.file, r.group, r.label, r.hostname, r.ip, r.deviceType⟩
    | Nat.succ _, some q =>
      { result := if q.result == r.result then maskStr else r.result
        file :=
          if q.result == r.result && q.file == r.file then maskStr
          else r.file
        group :=
          if q.result == r.result && q.file == r.file
              && q.group == r.group then maskStr
          else r.group
        label := r.label
        hostname := r.hostname
        ip := r.ip
        deviceType := r.deviceType }

/-! ### Enumeration orders for the ordering claim. -/

/-- The enumeration order claim C3 describes, read literally: for each
requested group in caller-given order, over each source containing that
group, each device label in insertion order (group-major). -/
def claimedGroupMajorOrder (machines : MultipleMachines)
    (groups : List String) : List WorkItem :=
  groups.flatMap fun group =>
    machines.flatMap fun fe =>
      match fe.2.lookup group with
      | none => []
      | some gm => gm.map fun lm => (fe.1, group, lm.1, lm.2)

/-- The source-major enumeration the code performs, written independently
of `workList`: for each source, for each requested group present in that
source (in caller-given order), each device label in insertion order. -/
def sourceMajorOrder (machines : MultipleMachines)
    (groups : List String) : List WorkItem :=
  machines.flatMap fun fe =>
    (groups.filter fun g => (fe.2.lookup g).isSome).flatMap fun g =>
      ((fe.2.lookup g).getD []).map fun lm => (fe.1, g, lm.1, lm.2)

/-- Code-point prefix test, used to model the regex `^ERROR` of the spec's
example scenario. -/
def charsStartWith : List Char → List Char → Bool
  | [], _ => true
  | _ :: _, [] => false
  | a :: as, b :: bs => a == b && charsStartWith as bs

/-- A model of the compiled pattern `^ERROR`: it matches exactly the
strings starting with `ERROR`, and the first match's span is `ERROR`. -/
def caretErrorPattern : RePattern :=
  ⟨fun s => if charsStartWith "ERROR".data s.data then some "ERROR" else none⟩

/-- Where, during one device's handling, the session collaborator raises
exception `e`: in the autodetection probe, when opening the session, or
during command dispatch (with dispatch actually reached). -/
def raisesDuringDevice (default_device_type : String) (machine : Machine)
    (cmds prompt_patterns : List String) (sb : SessionBehavior)
    (e : PyExc) : Prop :=
  resolveDeviceType (mergedDeviceType default_device_type machine) sb
      = .exn e
  ∨ (∃ dt, resolveDeviceType (mergedDeviceType default_device_type machine)
        sb = .ok dt ∧ dtFalsy dt = false ∧ sb.openSession = some e)
  ∨ (∃ dt c0 rest,
      resolveDeviceType (mergedDeviceType default_device_type machine) sb
          = .ok dt
      ∧ dtFalsy dt = false ∧ sb.openSession = none
      ∧ cmds = c0 :: rest ∧ c0 ≠ ""
      ∧ (rest.isEmpty && prompt_patterns.isEmpty) = false
      ∧ sb.send = .exn e)

/-! ### Concrete fixtures used to evaluate the model on the spec's example
scenarios. -/

/-- The spec's example inventory:
`{"f1": {"core": {"r1": {"host": "10.0.0.1"}, "r2": {"host": "10.0.0.2"}}}}`. -/
def exampleInventory : MultipleMachines :=
  [("f1", [("core", [("r1", ⟨"10.0.0.1", none⟩), ("r2", ⟨"10.0.0.2", none⟩)])])]

/-- A session behaviour whose session open raises
`NetmikoAuthenticationException`. -/
def authFailBehavior : SessionBehavior :=
  { autodetect := .ok none
    openSession := some (.netmikoAuth "denied")
    send := .ok (.text "") }

/-- A session behaviour whose session open raises
`NetmikoTimeoutException`. -/
def timeoutBehavior : SessionBehavior :=
  { autodetect := .ok none
    openSession := some (.netmikoTimeout "timed-out")
    send := .ok (.text "") }

/-- A session behaviour that opens successfully and answers `t` to the
dispatched command. -/
def okBehavior (t : String) : SessionBehavior :=
  { autodetect := .ok none, openSession := none, send := .ok (.text t) }

/-- A two-source, two-group inventory on which source-major and group-major
enumeration produce different orders. -/
def twoByTwoInventory : MultipleMachines :=
  [("f1", [("a", [("x1", ⟨"10.0.1.1", none⟩)]),
           ("b", [("y1", ⟨"10.0.1.2", none⟩)])]),
   ("f2", [("a", [("x2", ⟨"10.0.2.1", none⟩)]),
           ("b", [("y2", ⟨"10.0.2.2", none⟩)])])]

/-- CLI row of the example scenario's successful device `r1`. -/
def r1Row : Row :=
  { file := "f1", group := "core", label := "r1", hostname := "10.0.0.1"
    ip := "10.0.0.1", deviceType := "cisco_ios", result := "IOS 15.2"
    log := "" }

/-- CLI row of the example scenario's timed-out device `r2`. -/
def r2Row : Row :=
  { file := "f1", group := "core", label := "r2", hostname := "10.0.0.2"
    ip := "10.0.0.2", deviceType := "cisco_ios", result := cliTimeoutStr
    log := "" }

/-! ### Theorems. -/

/-- Wherever the collaborator raises during one device's handling —
autodetection, session open, or dispatch — the stored `result` is exactly
what the `except` clauses produce. -/
theorem runDevice_raises_catch (default_device_type : String)
    (machine : Machine) (cmds prompt_patterns : List String)
    (textfsm_template : Option String) (output_regex : Option RePattern)
    (sb : SessionBehavior) (e : PyExc)
    (h : raisesDuringDevice default_device_type machine cmds prompt_patterns
      sb e) :
    (runDevice default_device_type machine cmds prompt_patterns
      textfsm_template output_regex sb).1 = catchExc e := by
  rcases h with h | ⟨dt, hdt, hf, hop⟩ |
    ⟨dt, c0, rest, hdt, hf, hop, hcmds, hc0, hpp, hsend⟩
  · simp [runDevice, h]
  · simp [runDevice, hdt, hf, hop]
  · have hc0' : c0.isEmpty = false := by
      cases hh : c0.isEmpty
      · rfl
      · exact absurd ((String.isEmpty_iff c0).mp hh) hc0
    subst hcmds
    simp [runDevice, hdt, hf, hop, hsend, hc0', hpp]

/-- C1: for every device in the batch, an authentication failure from the
session collaborator yields the Unauthorized outcome, a timeout/unreachable
failure yields the TimedOut outcome, and any other exception is stored
as-is in the envelope (the OtherFailure outcome); no exception escapes the
per-device handling, and every work item still receives exactly one
envelope, in order. -/
theorem c1_per_device_errors_to_envelopes (machines : MultipleMachines)
    (username password default_device_type : String)
    (groups cmds prompt_patterns : List String)
    (textfsm_template : Option String) (output_regex : Option RePattern)
    (getHostname : String → String)
    (beh : String → String → String → SessionBehavior) :
    (query_machines machines username password default_device_type groups
        cmds prompt_patterns textfsm_template output_regex getHostname
        beh).length
      = (workList machines groups).length
    ∧ (query_machines machines username password default_device_type groups
        cmds prompt_patterns textfsm_template output_regex getHostname
        beh).map Envelope.result
      = (workList machines groups).map (fun w =>
          (runDevice default_device_type w.2.2.2 cmds prompt_patterns
            textfsm_template output_regex (beh w.1 w.2.1 w.2.2.1)).1)
    ∧ (∀ machine sb msg,
        raisesDuringDevice default_device_type machine cmds prompt_patterns
            sb (.netmikoAuth msg) →
        (runDevice default_device_type machine cmds prompt_patterns
          textfsm_template output_regex sb).1 = .nq .unauthorized)
    ∧ (∀ machine sb msg,
        raisesDuringDevice default_device_type machine cmds prompt_patterns
            sb (.netmikoTimeout msg) →
        (runDevice default_device_type machine cmds prompt_patterns
          textfsm_template output_regex sb).1 = .nq .timeout)
    ∧ (∀ machine sb e,
        raisesDuringDevice default_device_type machine cmds prompt_patterns
            sb e →
        (∀ m, e ≠ .netmikoAuth m) → (∀ m, e ≠ .netmikoTimeout m) →
        (runDevice default_device_type machine cmds prompt_patterns
          textfsm_template output_regex sb).1 = .exc e) := by
  refine ⟨?_, ?_, ?_, ?_, ?_⟩
  · simp [query_machines]
  · simp only [query_machines, List.map_map]
    have : (workList machines groups).map (fun w =>
        (runDevice default_device_type w.2.2.2 cmds prompt_patterns
          textfsm_template output_regex (beh w.1 w.2.1 w.2.2.1)).1)
        = ((workList machines groups).enum.map Prod.snd).map (fun w =>
          (runDevice default_device_type w.2.2.2 cmds prompt_patterns
            textfsm_template output_regex (beh w.1 w.2.1 w.2.2.1)).1) := by
      rw [List.enum_map_snd]
    rw [this, List.map_map]
    rfl
  · intro machine sb msg h
    rw [runDevice_raises_catch _ _ _ _ _ _ _ _ h]; rfl
  · intro machine sb msg h
    rw [runDevice_raises_catch _ _ _ _ _ _ _ _ h]; rfl
  · intro machine sb e h hna hnt
    rw [runDevice_raises_catch _ _ _ _ _ _ _ _ h]
    cases e with
    | netmikoAuth m => exact absurd rfl (hna m)
    | netmikoTimeout m => exact absurd rfl (hnt m)
    | indexError => rfl
    | generic m => rfl

/-- Witness for C1 at the example inventory with an auth-failing device. -/
theorem c1_witness :
    (query_machines exampleInventory "u" "p" "cisco_ios" ["core"] ["show"]
        [""] none none (fun s => s) (fun _ _ _ => authFailBehavior)).length
      = (workList exampleInventory ["core"]).length
    ∧ (runDevice "cisco_ios" ⟨"10.0.0.1", none⟩ ["show"] [""] none none
        authFailBehavior).1 = .nq .unauthorized := by
  have h := c1_per_device_errors_to_envelopes exampleInventory "u" "p"
    "cisco_ios" ["core"] ["show"] [""] none none (fun s => s)
    (fun _ _ _ => authFailBehavior)
  exact ⟨h.1, h.2.2.1 ⟨"10.0.0.1", none⟩ authFailBehavior "denied"
    (Or.inr (Or.inl ⟨some "cisco_ios", rfl, rfl, rfl⟩))⟩

/-- C9 (code bug evaluation): `str()` of every `NetqueryException`
subclass is the placeholder `"exception"`, so the strings streamed for the
Unauthorized, TimedOut, UnknownDeviceType and NoMatches outcomes are all
the same — no two of them are distinct. -/
theorem c9_all_outcome_kinds_collapse :
    eventPayloadResult
      { filename := "f1"
        group := "core"
        label := "r1"
        hostname := "10.0.0.1"
        ip := "10.0.0.1"
        device_type := some "cisco_ios"
        result := .nq .unauthorized
        log := ""
        progressNum := 1
        progressDen := 2 } = "exception"
    ∧ coerceResult (.nq .unauthorized) = "exception"
    ∧ coerceResult (.nq .timeout) = "exception"
    ∧ coerceResult (.nq .unknownDeviceType) = "exception"
    ∧ coerceResult (.nq (.noMatches "OK: link up")) = "exception" :=
  ⟨rfl, rfl, rfl, rfl, rfl⟩

/-- Path characterisation: empty command list.  `len(cmds[0])` raises
`IndexError`, which the generic `except` stores in the envelope. -/
theorem runDevice_no_cmds {default_device_type : String} {machine : Machine}
    {prompt_patterns : List String} {textfsm_template : Option String}
    {output_regex : Option RePattern} {sb : SessionBehavior}
    {dt : Option String}
    (hdt : resolveDeviceType (mergedDeviceType default_device_type machine)
      sb = .ok dt)
    (hf : dtFalsy dt = false) (hop : sb.openSession = none) :
    runDevice default_device_type machine [] prompt_patterns
      textfsm_template output_regex sb = (.exc .indexError, false) := by
  simp [runDevice, hdt, hf, hop, catchExc]

/-- Path characterisation: first command empty — the connectivity probe. -/
theorem runDevice_probe {default_device_type : String} {machine : Machine}
    {prompt_patterns : List String} {textfsm_template : Option String}
    {output_regex : Option RePattern} {sb : SessionBehavior}
    {dt : Option String} {rest : List String}
    (hdt : resolveDeviceType (mergedDeviceType default_device_type machine)
      sb = .ok dt)
    (hf : dtFalsy dt = false) (hop : sb.openSession = none) :
    runDevice default_device_type machine ("" :: rest) prompt_patterns
      textfsm_template output_regex sb = (.str "✅ Accessible", false) := by
  have he : ("" : String).isEmpty = true := rfl
  simp [runDevice, hdt, hf, hop, he]

/-- Path characterisation: a single non-empty command with an empty
`prompt_patterns` list — the argument expression `prompt_patterns[0]`
raises `IndexError` before dispatch. -/
theorem runDevice_prompt_index {default_device_type : String}
    {machine : Machine} {c0 : String} {rest prompt_patterns : List String}
    {textfsm_template : Option String} {output_regex : Option RePattern}
    {sb : SessionBehavior} {dt : Option String}
    (hdt : resolveDeviceType (mergedDeviceType default_device_type machine)
      sb = .ok dt)
    (hf : dtFalsy dt = false) (hop : sb.openSession = none)
    (hc0 : c0.isEmpty = false)
    (hip : (rest.isEmpty && prompt_patterns.isEmpty) = true) :
    runDevice default_device_type machine (c0 :: rest) prompt_patterns
      textfsm_template output_regex sb = (.exc .indexError, false) := by
  simp [runDevice, hdt, hf, hop, hc0, hip, catchExc]

/-- Path characterisation: dispatch reached — the command(s) are sent and
the result is the canonicalised text run through the output filter. -/
theorem runDevice_dispatch {default_device_type : String}
    {machine : Machine} {c0 : String} {rest prompt_patterns : List String}
    {textfsm_template : Option String} {output_regex : Option RePattern}
    {sb : SessionBehavior} {dt : Option String}
    (hdt : resolveDeviceType (mergedDeviceType default_device_type machine)
      sb = .ok dt)
    (hf : dtFalsy dt = false) (hop : sb.openSession = none)
    (hc0 : c0.isEmpty = false)
    (hip : (rest.isEmpty && prompt_patterns.isEmpty) = false) :
    runDevice default_device_type machine (c0 :: rest) prompt_patterns
      textfsm_template output_regex sb
      = (match sb.send with
        | .exn e => (catchExc e, true)
        | .ok res => (filterOutput output_regex res.canon, true)) := by
  simp [runDevice, hdt, hf, hop, hc0, hip]

/-- C5 counterexample: against a reachable device, the command list
`["", "show version"]` — which is neither empty nor a single empty string —
still produces the ConnectivityOnly outcome with nothing dispatched,
because core.py line 75 tests only `len(cmds[0]) == 0`. -/
theorem c5_counterexample :
    runDevice "cisco_ios" ⟨"10.0.0.1", none⟩ ["", "show version"] [""]
        none none (okBehavior "IOS 15.2")
      = (.str "✅ Accessible", false)
    ∧ ["", "show version"] ≠ []
    ∧ ["", "show version"] ≠ [""] := by
  refine ⟨?_, by decide, by decide⟩
  exact runDevice_probe rfl rfl rfl

/-- C5 (amended): for a device whose device type resolves and whose session
opens successfully, the outcome is ConnectivityOnly with nothing dispatched
exactly when the command list is non-empty and its *first* command is the
empty string; an empty command list instead stores the `IndexError` raised
by `cmds[0]`; and a non-empty first command is dispatched whenever the
prompt-pattern list is non-empty (as every caller guarantees — both UIs
build it by splitting a string, which never yields an empty list). -/
theorem c5_connectivity_probe (default_device_type : String)
    (machine : Machine) (cmds prompt_patterns : List String)
    (textfsm_template : Option String) (output_regex : Option RePattern)
    (sb : SessionBehavior) (dt : Option String)
    (hdt : resolveDeviceType (mergedDeviceType default_device_type machine)
      sb = .ok dt)
    (hf : dtFalsy dt = false) (hop : sb.openSession = none) :
    ((runDevice default_device_type machine cmds prompt_patterns
          textfsm_template output_regex sb
        = (.str "✅ Accessible", false))
      ↔ ∃ rest, cmds = "" :: rest)
    ∧ (cmds = [] →
        runDevice default_device_type machine cmds prompt_patterns
          textfsm_template output_regex sb = (.exc .indexError, false))
    ∧ (∀ c0 rest, cmds = c0 :: rest → c0 ≠ "" → prompt_patterns ≠ [] →
        (runDevice default_device_type machine cmds prompt_patterns
          textfsm_template output_regex sb).2 = true) := by
  refine ⟨⟨?_, ?_⟩, ?_, ?_⟩
  · intro hres
    match hcmds : cmds with
    | [] =>
      rw [runDevice_no_cmds hdt hf hop] at hres
      exact absurd hres (by simp)
    | c0 :: rest =>
      cases hc0 : c0.isEmpty with
      | true =>
        exact ⟨rest, by rw [(String.isEmpty_iff c0).mp hc0]⟩
      | false =>
        exfalso
        cases hip : (rest.isEmpty && prompt_patterns.isEmpty) with
        | true =>
          rw [runDevice_prompt_index hdt hf hop hc0 hip] at hres
          exact absurd hres (by simp)
        | false =>
          rw [runDevice_dispatch hdt hf hop hc0 hip] at hres
          rcases hsend : sb.send with e | res <;>
            simp [hsend, Prod.ext_iff] at hres
  · rintro ⟨rest, rfl⟩
    exact runDevice_probe hdt hf hop
  · rintro rfl
    exact runDevice_no_cmds hdt hf hop
  · rintro c0 rest rfl hc0 hpp
    have hc0' : c0.isEmpty = false := by
      cases hh : c0.isEmpty
      · rfl
      · exact absurd ((String.isEmpty_iff c0).mp hh) hc0
    have hip : (rest.isEmpty && prompt_patterns.isEmpty) = false := by
      cases hpe : prompt_patterns.isEmpty
      · simp
      · exact absurd (List.isEmpty_iff.mp hpe) hpp
    rw [runDevice_dispatch hdt hf hop hc0' hip]
    rcases sb.send with e | res <;> simp

/-- Witness for C5 at a concrete reachable device with a probe command
list. -/
theorem c5_witness :
    runDevice "cisco_ios" ⟨"10.0.0.1", none⟩ [""] [""] none none
        (okBehavior "IOS 15.2") = (.str "✅ Accessible", false)
    ∧ (runDevice "cisco_ios" ⟨"10.0.0.1", none⟩ ["show version"] [""] none
        none (okBehavior "IOS 15.2")).2 = true := by
  have h := c5_connectivity_probe "cisco_ios" ⟨"10.0.0.1", none⟩ [""] [""]
    none none (okBehavior "IOS 15.2") (some "cisco_ios") rfl rfl rfl
  have h2 := c5_connectivity_probe "cisco_ios" ⟨"10.0.0.1", none⟩
    ["show version"] [""] none none (okBehavior "IOS 15.2")
    (some "cisco_ios") rfl rfl rfl
  exact ⟨h.1.mpr ⟨[], rfl⟩,
    h2.2.2 "show version" [] rfl (by decide) (by decide)⟩

/-- C6: if an output regex is configured and dispatch succeeded, a match
narrows the result to the first match's span, and no match stores the
NoMatches outcome carrying the original canonical text unmodified. -/
theorem c6_regex_filter (default_device_type : String) (machine : Machine)
    (c0 : String) (rest prompt_patterns : List String)
    (textfsm_template : Option String) (p : RePattern)
    (sb : SessionBehavior) (dt : Option String) (res : SendResult)
    (hdt : resolveDeviceType (mergedDeviceType default_device_type machine)
      sb = .ok dt)
    (hf : dtFalsy dt = false) (hop : sb.openSession = none)
    (hc0 : c0.isEmpty = false)
    (hip : (rest.isEmpty && prompt_patterns.isEmpty) = false)
    (hsend : sb.send = .ok res) :
    (∀ m, p.search res.canon = some m →
      (runDevice default_device_type machine (c0 :: rest) prompt_patterns
        textfsm_template (some p) sb).1 = .str m)
    ∧ (p.search res.canon = none →
      (runDevice default_device_type machine (c0 :: rest) prompt_patterns
        textfsm_template (some p) sb).1
        = .nq (.noMatches res.canon)) := by
  rw [runDevice_dispatch hdt hf hop hc0 hip, hsend]
  constructor
  · intro m hm
    simp [filterOutput, hm]
  · intro hm
    simp [filterOutput, hm]

/-- Witness for C6: the spec's example — regex `^ERROR` against raw text
`"OK: link up"` yields `NoMatches("OK: link up")`. -/
theorem c6_witness :
    caretErrorPattern.search (SendResult.canon (.text "OK: link up")) = none
    ∧ (runDevice "cisco_ios" ⟨"10.0.0.1", none⟩ ["show interface"] [""]
        none (some caretErrorPattern)
        (okBehavior "OK: link up")).1 = .nq (.noMatches "OK: link up") := by
  have h := c6_regex_filter "cisco_ios" ⟨"10.0.0.1", none⟩ "show interface"
    [] [""] none caretErrorPattern (okBehavior "OK: link up")
    (some "cisco_ios") (.text "OK: link up") rfl rfl rfl (by decide)
    (by decide) rfl
  exact ⟨by decide, h.2 (by decide)⟩

/-- `key in dict` agrees with association-list lookup success. -/
theorem lookup_isSome_iff {α : Type} (l : List (String × α)) (k : String) :
    (l.lookup k).isSome = true ↔ k ∈ l.map Prod.fst := by
  induction l with
  | nil => simp [List.lookup]
  | cons h t ih =>
    rcases h with ⟨a, b⟩
    by_cases hk : k = a
    · subst hk
      simp [List.lookup]
    · have hb : (k == a) = false := by
        simpa using hk
      simp [List.lookup, hb, ih, hk]

/-- C4 counterexample: with a single source whose only group is `g1`, the
request `["all", "bogus"]` names the absent group `bogus` explicitly, yet
`validate_groups` does not fail — it only inspects `groups[0]` and returns
the union. -/
theorem c4_counterexample :
    validate_groups [("f1", [("g1", [("r1", ⟨"10.0.0.1", none⟩)])])]
        ["all", "bogus"] = .ok ["g1"]
    ∧ ([("f1", [("g1", [("r1", ⟨"10.0.0.1", none⟩)])])] :
        MultipleMachines).any (fun fe => (fe.2.lookup "bogus").isSome)
      = false := by
  constructor
  · rfl
  · decide

/-- C4 (amended): when the first requested group is the sentinel `"all"`,
the returned list is exactly the union of group names across every source
(as a set) and the remaining request entries are ignored, absent or not;
when the first requested group is not `"all"`, the call returns the request
itself — every element of which occurs in the union — if each requested
group occurs in some source, and fails with the unknown-group error if some
requested group is absent from every source. -/
theorem c4_group_expansion (machines : MultipleMachines)
    (groups : List String) (g0 : String) (rest : List String)
    (hg : groups = g0 :: rest) :
    (g0 = "all" →
      validate_groups machines groups = .ok (allGroupsList machines)
      ∧ ∀ g, g ∈ allGroupsList machines ↔
          ∃ fe ∈ machines, (fe.2.lookup g).isSome = true)
    ∧ (g0 ≠ "all" →
      ((∀ g ∈ groups, ∃ fe ∈ machines, (fe.2.lookup g).isSome = true) →
        validate_groups machines groups = .ok groups
        ∧ ∀ g ∈ groups, g ∈ allGroupsList machines)
      ∧ ((∃ g ∈ groups, ∀ fe ∈ machines, (fe.2.lookup g).isSome = false) →
        validate_groups machines groups = .error .unknownGroup)) := by
  have hmem : ∀ g, g ∈ allGroupsList machines ↔
      ∃ fe ∈ machines, (fe.2.lookup g).isSome = true := by
    intro g
    simp [allGroupsList, List.mem_dedup, List.mem_flatMap,
      lookup_isSome_iff]
  subst hg
  constructor
  · rintro rfl
    refine ⟨?_, hmem⟩
    simp [validate_groups]
  · intro hne
    have hb : (g0 == "all") = false := by simpa using hne
    constructor
    · intro hall
      have hchk : ((g0 :: rest).all fun g =>
          machines.any fun fe => (fe.2.lookup g).isSome) = true := by
        rw [List.all_eq_true]
        intro g hgmem
        rw [List.any_eq_true]
        rcases hall g hgmem with ⟨fe, hfe, hs⟩
        exact ⟨fe, hfe, hs⟩
      refine ⟨by simp [validate_groups, hb, hchk], ?_⟩
      intro g hgmem
      exact (hmem g).mpr (hall g hgmem)
    · rintro ⟨g, hgmem, habs⟩
      have hchk : ((g0 :: rest).all fun g =>
          machines.any fun fe => (fe.2.lookup g).isSome) = false := by
        rw [← Bool.not_eq_true, List.all_eq_true]
        intro hforall
        have := hforall g hgmem
        rw [List.any_eq_true] at this
        rcases this with ⟨fe, hfe, hs⟩
        rw [habs fe hfe] at hs
        exact Bool.false_ne_true hs
      simp [validate_groups, hb, hchk]

/-- Witness for C4: one concrete `"all"` expansion and one concrete
explicit request, both via the theorem. -/
theorem c4_witness :
    validate_groups [("f1", [("g1", [("r1", ⟨"10.0.0.1", none⟩)])]),
        ("f2", [("g2", [("r2", ⟨"10.0.0.2", none⟩)])])] ["all"]
      = .ok ["g1", "g2"]
    ∧ validate_groups [("f1", [("g1", [("r1", ⟨"10.0.0.1", none⟩)])]),
        ("f2", [("g2", [("r2", ⟨"10.0.0.2", none⟩)])])] ["g2"]
      = .ok ["g2"] := by
  have h1 := (c4_group_expansion
    [("f1", [("g1", [("r1", ⟨"10.0.0.1", none⟩)])]),
     ("f2", [("g2", [("r2", ⟨"10.0.0.2", none⟩)])])]
    ["all"] "all" [] rfl).1 rfl
  have h2 := ((c4_group_expansion
    [("f1", [("g1", [("r1", ⟨"10.0.0.1", none⟩)])]),
     ("f2", [("g2", [("r2", ⟨"10.0.0.2", none⟩)])])]
    ["g2"] "g2" [] rfl).2 (by decide)).1 (by decide)
  refine ⟨?_, h2.1⟩
  rw [h1.1]
  rfl

/-- The `workList` comprehension enumerates source-major: it equals the
filter/flatten formulation "for each source, for each requested group
present in it (caller order), each label in insertion order". -/
theorem workList_eq_sourceMajor (machines : MultipleMachines)
    (groups : List String) :
    workList machines groups = sourceMajorOrder machines groups := by
  unfold workList sourceMajorOrder
  congr 1
  funext fe
  induction groups with
  | nil => rfl
  | cons g gs ih =>
    cases h : fe.2.lookup g with
    | none => simp [h, ih]
    | some gm => simp [h, ih]

/-- C3 counterexample: on a two-source, two-group inventory the engine
emits the second source's first-group devices *after* the first source's
second group — the enumeration is source-major (source → group → label),
not "for each requested group, over each source containing it" as the
claim reads. -/
theorem c3_counterexample :
    (query_machines twoByTwoInventory "u" "p" "cisco_ios" ["a", "b"]
        ["show version"] [""] none none (fun s => s)
        (fun _ _ _ => okBehavior "up")).map Envelope.toTriple
      = [("f1", "a", "x1"), ("f1", "b", "y1"),
         ("f2", "a", "x2"), ("f2", "b", "y2")]
    ∧ (claimedGroupMajorOrder twoByTwoInventory ["a", "b"]).map
        WorkItem.toTriple
      = [("f1", "a", "x1"), ("f2", "a", "x2"),
         ("f1", "b", "y1"), ("f2", "b", "y2")]
    ∧ ([("f1", "a", "x1"), ("f1", "b", "y1"),
        ("f2", "a", "x2"), ("f2", "b", "y2")]
        : List (String × String × String))
      ≠ [("f1", "a", "x1"), ("f2", "a", "x2"),
         ("f1", "b", "y1"), ("f2", "b", "y2")] := by
  refine ⟨by decide, by decide, by decide⟩

/-- C3 (amended): `query_machines` emits envelopes in source-major order —
for each source file in insertion order, for each requested group in
caller-given order that is present in that source, for each device label in
insertion order; the enumeration is a pure function of the inventory and
the group list, so two runs with the same inputs produce the identical
envelope sequence, and the `i`-th envelope carries progress fraction
`(i+1) / total`. -/
theorem c3_enumeration_source_major (machines : MultipleMachines)
    (username password default_device_type : String)
    (groups cmds prompt_patterns : List String)
    (textfsm_template : Option String) (output_regex : Option RePattern)
    (getHostname : String → String)
    (beh : String → String → String → SessionBehavior) :
    workList machines groups = sourceMajorOrder machines groups
    ∧ query_machines machines username password default_device_type groups
        cmds prompt_patterns textfsm_template output_regex getHostname beh
      = (sourceMajorOrder machines groups).enum.map (fun ie =>
          mkEnvelope default_device_type cmds prompt_patterns
            textfsm_template output_regex getHostname beh
            (sourceMajorOrder machines groups).length ie.1 ie.2)
    ∧ query_machines machines username password default_device_type groups
        cmds prompt_patterns textfsm_template output_regex getHostname beh
      = query_machines machines username password default_device_type
          groups cmds prompt_patterns textfsm_template output_regex
          getHostname beh
    ∧ ∀ i (h : i < (query_machines machines username password
        default_device_type groups cmds prompt_patterns textfsm_template
        output_regex getHostname beh).length),
        ((query_machines machines username password default_device_type
            groups cmds prompt_patterns textfsm_template output_regex
            getHostname beh).get ⟨i, h⟩).progressNum = i + 1
        ∧ ((query_machines machines username password default_device_type
            groups cmds prompt_patterns textfsm_template output_regex
            getHostname beh).get ⟨i, h⟩).progressDen
          = (workList machines groups).length := by
  have hw := workList_eq_sourceMajor machines groups
  refine ⟨hw, ?_, rfl, ?_⟩
  · simp only [query_machines]
    rw [hw]
  · intro i h
    have h' : i < (workList machines groups).length := by
      simpa [query_machines] using h
    constructor
    · simp [query_machines, mkEnvelope, List.get_eq_getElem,
        List.getElem_map, List.getElem_enum]
    · simp [query_machines, mkEnvelope, List.get_eq_getElem,
        List.getElem_map, List.getElem_enum]

/-- Witness for C3 at the two-source inventory: the first envelope's
progress pair is 1/4. -/
theorem c3_witness :
    ((query_machines twoByTwoInventory "u" "p" "cisco_ios" ["a", "b"]
        ["show version"] [""] none none (fun s => s)
        (fun _ _ _ => okBehavior "up")).get ⟨0, by decide⟩).progressNum = 1
    ∧ ((query_machines twoByTwoInventory "u" "p" "cisco_ios" ["a", "b"]
        ["show version"] [""] none none (fun s => s)
        (fun _ _ _ => okBehavior "up")).get ⟨0, by decide⟩).progressDen
      = 4 := by
  have h := (c3_enumeration_source_major twoByTwoInventory "u" "p"
    "cisco_ios" ["a", "b"] ["show version"] [""] none none (fun s => s)
    (fun _ _ _ => okBehavior "up")).2.2.2 0 (by decide)
  exact ⟨h.1, by rw [h.2]; decide⟩

/-- `firstTrue` never returns an index below its start. -/
theorem firstTrue_ge (c : Nat → Bool) :
    ∀ fuel start, start ≤ firstTrue c start fuel := by
  intro fuel
  induction fuel with
  | zero => intro start; exact Nat.le.refl
  | succ n ih =>
    intro start
    unfold firstTrue
    by_cases h : c start
    · simp [h]
    · simp only [h, if_false, Bool.false_eq_true]
      exact Nat.le_trans (Nat.le_succ start) (ih (start + 1))

/-- Below the index `firstTrue` returns, the condition is false. -/
theorem firstTrue_false (c : Nat → Bool) :
    ∀ fuel start i, start ≤ i → i < firstTrue c start fuel →
      c i = false := by
  intro fuel
  induction fuel with
  | zero =>
    intro start i hsi hlt
    exact absurd (Nat.lt_of_le_of_lt hsi hlt) (Nat.lt_irrefl start)
  | succ n ih =>
    intro start i hsi hlt
    unfold firstTrue at hlt
    by_cases h : c start
    · rw [if_pos h] at hlt
      exact absurd (Nat.lt_of_le_of_lt hsi hlt) (Nat.lt_irrefl start)
    · rw [if_neg h] at hlt
      rcases Nat.eq_or_lt_of_le hsi with rfl | hsi'
      · exact Bool.of_not_eq_true h
      · exact ih (start + 1) i hsi' hlt

/-- If `firstTrue` returns an index inside its range, the condition holds
there. -/
theorem firstTrue_true (c : Nat → Bool) :
    ∀ fuel start, firstTrue c start fuel < start + fuel →
      c (firstTrue c start fuel) = true := by
  intro fuel
  induction fuel with
  | zero =>
    intro start h
    exact absurd h (Nat.lt_irrefl start)
  | succ n ih =>
    intro start h
    unfold firstTrue at h ⊢
    by_cases hc : c start
    · simpa [hc] using hc
    · rw [if_neg hc] at h ⊢
      exact ih (start + 1) (by omega)

/-- Closed form of the `web_query` forwarding loop: with `c` the combined
cancellation condition, the loop forwards exactly the rows before the first
index at which `c` holds, and pulls at most one row past it. -/
theorem streamLoop_eq (d s : Nat → Bool) :
    ∀ (rows : List Envelope) (start : Nat),
      streamLoop d s rows start
        = (rows.take
            (firstTrue (fun i => d i || s i) start rows.length - start),
           min (firstTrue (fun i => d i || s i) start rows.length - start
              + 1) rows.length) := by
  intro rows
  induction rows with
  | nil => intro start; simp [streamLoop, firstTrue]
  | cons r rest ih =>
    intro start
    by_cases hc : (d start || s start) = true
    · have hft : firstTrue (fun i => d i || s i) start (rest.length + 1)
          = start := by
        unfold firstTrue
        rw [if_pos hc]
      simp only [streamLoop, List.length_cons, hft, Nat.sub_self,
        List.take_zero]
      rw [if_pos hc]
      have hmin : (0 + 1) ⊓ (rest.length + 1) = 1 := by omega
      rw [hmin]
    · have hft : firstTrue (fun i => d i || s i) start (rest.length + 1)
          = firstTrue (fun i => d i || s i) (start + 1) rest.length := by
        show (if (d start || s start) = true then start
            else firstTrue (fun i => d i || s i) (start + 1) rest.length)
          = firstTrue (fun i => d i || s i) (start + 1) rest.length
        rw [if_neg hc]
      have hk := firstTrue_ge (fun i => d i || s i) rest.length (start + 1)
      simp only [streamLoop, List.length_cons, hft]
      rw [if_neg hc, ih (start + 1)]
      simp only [Prod.mk.injEq]
      refine ⟨?_, by omega⟩
      have h1 : firstTrue (fun i => d i || s i) (start + 1) rest.length
          - start
          = (firstTrue (fun i => d i || s i) (start + 1) rest.length
            - (start + 1)) + 1 := by omega
      rw [h1, List.take_succ_cons]

/-- C10: before each event is forwarded the wrapper evaluates both
cancellation sources; the forwarded events are exactly the rows pulled
before the first check at which either source holds (so no envelope for a
remaining device is produced), at most one row is pulled past that check —
after the cancellation is observed the generator is never resumed, hence no
further device session is opened — and at every forwarded index both
sources were observed false. -/
theorem c10_stream_cancellation (d s : Nat → Bool)
    (rows : List Envelope) :
    (streamLoop d s rows 0).1
      = rows.take (firstTrue (fun i => d i || s i) 0 rows.length)
    ∧ (streamLoop d s rows 0).2
      = min (firstTrue (fun i => d i || s i) 0 rows.length + 1) rows.length
    ∧ (∀ i, i < firstTrue (fun i => d i || s i) 0 rows.length →
        d i = false ∧ s i = false)
    ∧ (firstTrue (fun i => d i || s i) 0 rows.length < rows.length →
        (d (firstTrue (fun i => d i || s i) 0 rows.length)
          || s (firstTrue (fun i => d i || s i) 0 rows.length)) = true) := by
  have h := streamLoop_eq d s rows 0
  rw [Nat.sub_zero] at h
  refine ⟨by rw [h], by rw [h], ?_, ?_⟩
  · intro i hi
    have := firstTrue_false (fun i => d i || s i) rows.length 0 i
      (Nat.zero_le i) hi
    constructor
    · exact (Bool.or_eq_false_iff.mp this).1
    · exact (Bool.or_eq_false_iff.mp this).2
  · intro hlt
    exact firstTrue_true (fun i => d i || s i) rows.length 0
      (by simpa using hlt)

/-- Witness for C10: streaming the example inventory's two envelopes with a
stop event observed at the second check forwards only the first envelope
and pulls exactly two rows. -/
theorem c10_witness :
    (streamLoop (fun _ => false) (fun i => i == 1)
        (query_machines exampleInventory "u" "p" "cisco_ios" ["core"]
          ["show version"] [""] none none (fun h => h)
          (fun _ _ _ => okBehavior "IOS 15.2")) 0).1
      = (query_machines exampleInventory "u" "p" "cisco_ios" ["core"]
          ["show version"] [""] none none (fun h => h)
          (fun _ _ _ => okBehavior "IOS 15.2")).take 1
    ∧ (streamLoop (fun _ => false) (fun i => i == 1)
        (query_machines exampleInventory "u" "p" "cisco_ios" ["core"]
          ["show version"] [""] none none (fun h => h)
          (fun _ _ _ => okBehavior "IOS 15.2")) 0).2 = 2 := by
  have h := c10_stream_cancellation (fun _ => false) (fun i => i == 1)
    (query_machines exampleInventory "u" "p" "cisco_ios" ["core"]
      ["show version"] [""] none none (fun h => h)
      (fun _ _ _ => okBehavior "IOS 15.2"))
  have hk : firstTrue
      (fun i => (fun (_ : Nat) => false) i || (fun i => i == 1) i) 0
      (query_machines exampleInventory "u" "p" "cisco_ios" ["core"]
        ["show version"] [""] none none (fun h => h)
        (fun _ _ _ => okBehavior "IOS 15.2")).length = 1 := by decide
  constructor
  · rw [h.1, hk]
  · rw [h.2.1, hk]
    decide

/-- With duplicate-free keys, association membership and lookup agree —
the dict semantics of the Python inventory. -/
theorem mem_iff_lookup {α : Type} {l : List (String × α)}
    (h : (l.map Prod.fst).Nodup) (k : String) (v : α) :
    (k, v) ∈ l ↔ l.lookup k = some v := by
  induction l with
  | nil => simp
  | cons p t ih =>
    rcases p with ⟨a, b⟩
    simp only [List.map_cons, List.nodup_cons] at h
    cases hk : (k == a) with
    | true =>
      have hka : k = a := by simpa using hk
      subst hka
      have hlook : ((k, b) :: t).lookup k = some b := by
        simp [List.lookup, hk]
      rw [hlook]
      constructor
      · intro hmem
        rcases List.mem_cons.mp hmem with heq | hmem2
        · rw [(Prod.mk.injEq _ _ _ _).mp heq.symm |>.2]
        · exact absurd (by simpa using List.mem_map_of_mem Prod.fst hmem2)
            h.1
      · intro hsome
        rw [← Option.some.injEq b v |>.mp hsome]
        exact List.mem_cons_self _ _
    | false =>
      have hka : k ≠ a := by simpa using hk
      have hlook : ((a, b) :: t).lookup k = t.lookup k := by
        simp [List.lookup, hk]
      rw [hlook, ← ih h.2]
      simp [List.mem_cons, Prod.mk.injEq, hka]

/-- A successful lookup returns the value of some stored entry. -/
theorem lookup_mem {α : Type} {l : List (String × α)} {k : String} {v : α}
    (h : l.lookup k = some v) : (k, v) ∈ l := by
  induction l with
  | nil => simp [List.lookup] at h
  | cons p t ih =>
    rcases p with ⟨a, b⟩
    cases hk : (k == a) with
    | true =>
      have hka : k = a := by simpa using hk
      subst hka
      have hlook : ((k, b) :: t).lookup k = some b := by
        simp [List.lookup, hk]
      rw [hlook] at h
      rw [← Option.some.injEq b v |>.mp h]
      exact List.mem_cons_self _ _
    | false =>
      have hlook : ((a, b) :: t).lookup k = t.lookup k := by
        simp [List.lookup, hk]
      rw [hlook] at h
      exact List.mem_cons_of_mem _ (ih h)

/-- Membership in the flattened work list: a work item occurs iff its group
is requested and the dict chain `machines[filename][group]` contains its
label (outer dict keys assumed unique, as Python guarantees). -/
theorem mem_workList_iff (machines : MultipleMachines)
    (groups : List String) (hfiles : (machines.map Prod.fst).Nodup)
    (f g l : String) (m : Machine) :
    (f, g, l, m) ∈ workList machines groups
      ↔ g ∈ groups ∧ ∃ fm, machines.lookup f = some fm
          ∧ ∃ gm, fm.lookup g = some gm ∧ (l, m) ∈ gm := by
  constructor
  · intro hmem
    rcases List.mem_flatMap.mp hmem with ⟨fe, hfe, hin⟩
    rcases List.mem_flatMap.mp hin with ⟨g', hg', hin2⟩
    cases hlook : fe.2.lookup g' with
    | none => rw [hlook] at hin2; simp at hin2
    | some gm =>
      rw [hlook] at hin2
      rcases List.mem_map.mp hin2 with ⟨lm, hlm, heq⟩
      have hf : fe.1 = f := congrArg (fun t => t.1) heq
      have hg : g' = g := congrArg (fun t => t.2.1) heq
      have hl : lm.1 = l := congrArg (fun t => t.2.2.1) heq
      have hm : lm.2 = m := congrArg (fun t => t.2.2.2) heq
      subst hf hg hl hm
      refine ⟨hg', fe.2, ?_, gm, hlook, hlm⟩
      exact (mem_iff_lookup hfiles fe.1 fe.2).mp hfe
  · rintro ⟨hg, fm, hfm, gm, hgm, hlm⟩
    refine List.mem_flatMap.mpr ⟨(f, fm),
      (mem_iff_lookup hfiles f fm).mpr hfm, ?_⟩
    refine List.mem_flatMap.mpr ⟨g, hg, ?_⟩
    rw [hgm]
    exact List.mem_map.mpr ⟨(l, m), hlm, rfl⟩

/-- Under the dict invariants (unique file names, unique labels within a
group) and a duplicate-free group list, the flattened work items have
pairwise-distinct (source, group, label) identities. -/
theorem workList_triples_nodup (machines : MultipleMachines)
    (groups : List String) (hfiles : (machines.map Prod.fst).Nodup)
    (hlabels : ∀ fe ∈ machines, ∀ ge ∈ fe.2,
      ((ge.2.map Prod.fst : List String)).Nodup)
    (hgroups : groups.Nodup) :
    ((workList machines groups).map WorkItem.toTriple).Nodup := by
  have hfirst : ∀ (fe : String × FileMap)
      (t : String × String × String),
      t ∈ ((groups.flatMap fun group =>
          match fe.2.lookup group with
          | none => []
          | some gm => gm.map fun lm =>
              ((fe.1, group, lm.1, lm.2) : WorkItem)).map
        WorkItem.toTriple) → t.1 = fe.1 := by
    intro fe t ht
    rcases List.mem_map.mp ht with ⟨w, hw, rfl⟩
    rcases List.mem_flatMap.mp hw with ⟨g, _, hwin⟩
    cases hl : fe.2.lookup g with
    | none => rw [hl] at hwin; simp at hwin
    | some gm =>
      rw [hl] at hwin
      rcases List.mem_map.mp hwin with ⟨lm, _, rfl⟩
      rfl
  have hsecond : ∀ (fe : String × FileMap) (g : String)
      (t : String × String × String),
      t ∈ ((match fe.2.lookup g with
          | none => ([] : List WorkItem)
          | some gm => gm.map fun (lm : String × Machine) =>
              ((fe.1, g, lm.1, lm.2) : WorkItem)).map
        WorkItem.toTriple) → t.2.1 = g := by
    intro fe g t ht
    cases hl : fe.2.lookup g with
    | none => rw [hl] at ht; simp at ht
    | some gm =>
      rw [hl] at ht
      have ht' : t ∈ (gm.map fun (lm : String × Machine) =>
          ((fe.1, g, lm.1, lm.2) : WorkItem)).map WorkItem.toTriple := ht
      rcases List.mem_map.mp ht' with ⟨w, hw, rfl⟩
      rcases List.mem_map.mp hw with ⟨lm, _, rfl⟩
      rfl
  unfold workList
  rw [List.map_flatMap, List.nodup_flatMap]
  constructor
  · intro fe hfe
    rw [List.map_flatMap, List.nodup_flatMap]
    constructor
    · intro g _
      cases hlook : fe.2.lookup g with
      | none => simp
      | some gm =>
        have hgm : (g, gm) ∈ fe.2 := lookup_mem hlook
        have hnd := hlabels fe hfe (g, gm) hgm
        rw [List.map_map]
        have hcomp : (WorkItem.toTriple ∘ fun lm => (fe.1, g, lm.1, lm.2))
            = (fun l => (fe.1, g, l)) ∘ Prod.fst := rfl
        rw [hcomp, ← List.map_map]
        refine List.Nodup.map ?_ hnd
        intro a b hab
        exact congrArg (fun t => t.2.2) hab
    · have hp : groups.Pairwise (· ≠ ·) := hgroups
      refine List.Pairwise.imp ?_ hp
      intro g1 g2 hne t ht1 ht2
      exact hne ((hsecond fe g1 t ht1).symm.trans (hsecond fe g2 t ht2))
  · have hp : machines.Pairwise (fun a b => a.1 ≠ b.1) :=
      List.pairwise_map.mp hfiles
    refine List.Pairwise.imp ?_ hp
    intro fe1 fe2 hne t ht1 ht2
    exact hne ((hfirst fe1 t ht1).symm.trans (hfirst fe2 t ht2))

/-- The envelope identities produced by a run are exactly the work-item
identities, in order. -/
theorem query_triples_eq (machines : MultipleMachines)
    (username password default_device_type : String)
    (groups cmds prompt_patterns : List String)
    (textfsm_template : Option String) (output_regex : Option RePattern)
    (getHostname : String → String)
    (beh : String → String → String → SessionBehavior) :
    (query_machines machines username password default_device_type groups
        cmds prompt_patterns textfsm_template output_regex getHostname
        beh).map Envelope.toTriple
      = (workList machines groups).map WorkItem.toTriple := by
  simp only [query_machines, List.map_map]
  conv_rhs => rw [← List.enum_map_snd (workList machines groups),
    List.map_map]
  rfl

/-- C2 counterexample: `validate_groups` accepts the duplicated explicit
request `["core", "core"]` unchanged, and on it `query_machines` yields the
single reachable (source, group, label) triple twice. -/
theorem c2_counterexample :
    validate_groups [("f1", [("core", [("r1", ⟨"10.0.0.1", none⟩)])])]
        ["core", "core"] = .ok ["core", "core"]
    ∧ (query_machines [("f1", [("core", [("r1", ⟨"10.0.0.1", none⟩)])])]
        "u" "p" "cisco_ios" ["core", "core"] [""] [""] none none
        (fun s => s) (fun _ _ _ => okBehavior "")).map Envelope.toTriple
      = [("f1", "core", "r1"), ("f1", "core", "r1")]
    ∧ ¬ ([("f1", "core", "r1"), ("f1", "core", "r1")]
        : List (String × String × String)).Nodup := by
  refine ⟨rfl, by decide, by decide⟩

/-- C2 (amended): under the dict invariants (unique source names, unique
labels within a group) and a duplicate-free resolved group list — as the
`"all"` expansion always yields — a run emits pairwise-distinct
(source, group, label) identities, and an identity is emitted iff its group
is requested and `machines[source][group]` contains the label: every such
device exactly once, none skipped, none duplicated. -/
theorem c2_exactly_one_envelope_per_triple (machines : MultipleMachines)
    (username password default_device_type : String)
    (groups cmds prompt_patterns : List String)
    (textfsm_template : Option String) (output_regex : Option RePattern)
    (getHostname : String → String)
    (beh : String → String → String → SessionBehavior)
    (hfiles : (machines.map Prod.fst).Nodup)
    (hlabels : ∀ fe ∈ machines, ∀ ge ∈ fe.2,
      ((ge.2.map Prod.fst : List String)).Nodup)
    (hgroups : groups.Nodup) :
    ((query_machines machines username password default_device_type groups
        cmds prompt_patterns textfsm_template output_regex getHostname
        beh).map Envelope.toTriple).Nodup
    ∧ ∀ f g l, ((f, g, l) ∈ (query_machines machines username password
          default_device_type groups cmds prompt_patterns textfsm_template
          output_regex getHostname beh).map Envelope.toTriple
        ↔ (g ∈ groups ∧ ∃ fm, machines.lookup f = some fm
            ∧ ∃ gm, fm.lookup g = some gm ∧ l ∈ gm.map Prod.fst)) := by
  have hq := query_triples_eq machines username password
    default_device_type groups cmds prompt_patterns textfsm_template
    output_regex getHostname beh
  constructor
  · rw [hq]
    exact workList_triples_nodup machines groups hfiles hlabels hgroups
  · intro f g l
    rw [hq]
    constructor
    · intro hmem
      rcases List.mem_map.mp hmem with ⟨w, hw, heq⟩
      obtain ⟨f', g', l', m⟩ := w
      have hf : f' = f := congrArg (fun t => t.1) heq
      have hg : g' = g := congrArg (fun t => t.2.1) heq
      have hl : l' = l := congrArg (fun t => t.2.2) heq
      subst hf hg hl
      rcases (mem_workList_iff machines groups hfiles f' g' l' m).mp hw
        with ⟨hgmem, fm, hfm, gm, hgm, hlmem⟩
      exact ⟨hgmem, fm, hfm, gm, hgm,
        List.mem_map.mpr ⟨(l', m), hlmem, rfl⟩⟩
    · rintro ⟨hg, fm, hfm, gm, hgm, hl⟩
      rcases List.mem_map.mp hl with ⟨lm, hlm, rfl⟩
      refine List.mem_map.mpr ⟨(f, g, lm.1, lm.2), ?_, rfl⟩
      refine (mem_workList_iff machines groups hfiles f g lm.1 lm.2).mpr
        ⟨hg, fm, hfm, gm, hgm, ?_⟩
      simpa using hlm

/-- Witness for C2 at the example inventory: both reachable identities
appear, and the identity list is duplicate-free. -/
theorem c2_witness :
    ((query_machines exampleInventory "u" "p" "cisco_ios" ["core"]
        ["show version"] [""] none none (fun s => s)
        (fun _ _ _ => okBehavior "IOS 15.2")).map Envelope.toTriple).Nodup
    ∧ ("f1", "core", "r1") ∈ (query_machines exampleInventory "u" "p"
        "cisco_ios" ["core"] ["show version"] [""] none none (fun s => s)
        (fun _ _ _ => okBehavior "IOS 15.2")).map Envelope.toTriple := by
  have h := c2_exactly_one_envelope_per_triple exampleInventory "u" "p"
    "cisco_ios" ["core"] ["show version"] [""] none none (fun s => s)
    (fun _ _ _ => okBehavior "IOS 15.2") (by decide) (by decide)
    (by decide)
  refine ⟨h.1, (h.2 "f1" "core" "r1").mpr ?_⟩
  refine ⟨by decide, [("core", [("r1", ⟨"10.0.0.1", none⟩),
    ("r2", ⟨"10.0.0.2", none⟩)])], by decide, ?_⟩
  exact ⟨[("r1", ⟨"10.0.0.1", none⟩), ("r2", ⟨"10.0.0.2", none⟩)],
    by decide, by decide⟩

/-! ### Order theory for the code-point lexicographic comparisons. -/

/-- Code-point order is irreflexive. -/
theorem charsLt_irrefl : ∀ a : List Char, charsLt a a = false := by
  intro a
  induction a with
  | nil => rfl
  | cons x xs ih => simp [charsLt, ih]

/-- Two lists neither of which is below the other are equal. -/
theorem eq_of_charsLt_false : ∀ {a b : List Char},
    charsLt a b = false → charsLt b a = false → a = b := by
  intro a
  induction a with
  | nil =>
    intro b hab _
    cases b with
    | nil => rfl
    | cons y ys => simp [charsLt] at hab
  | cons x xs ih =>
    intro b hab hba
    cases b with
    | nil => simp [charsLt] at hba
    | cons y ys =>
      simp only [charsLt] at hab hba
      by_cases h1 : x.toNat < y.toNat
      · rw [if_pos h1] at hab
        exact absurd hab (by simp)
      · by_cases h2 : y.toNat < x.toNat
        · rw [if_pos h2] at hba
          exact absurd hba (by simp)
        · rw [if_neg h1, if_neg h2] at hab
          rw [if_neg h2, if_neg h1] at hba
          have hnat : x.toNat = y.toNat := by omega
          have hx : x = y := Char.ext (UInt32.ext hnat)
          rw [hx, ih hab hba]

/-- Code-point order is transitive. -/
theorem charsLt_trans : ∀ {a b c : List Char},
    charsLt a b = true → charsLt b c = true → charsLt a c = true := by
  intro a
  induction a with
  | nil =>
    intro b c hab hbc
    cases c with
    | nil =>
      cases b with
      | nil => exact hab
      | cons y ys => simp [charsLt] at hbc
    | cons z zs => simp [charsLt]
  | cons x xs ih =>
    intro b c hab hbc
    cases b with
    | nil => simp [charsLt] at hab
    | cons y ys =>
      cases c with
      | nil => simp [charsLt] at hbc
      | cons z zs =>
        simp only [charsLt] at hab hbc ⊢
        by_cases h1 : x.toNat < y.toNat
        · by_cases h2 : y.toNat < z.toNat
          · rw [if_pos (by omega)]
          · rw [if_neg h2] at hbc
            by_cases h3 : z.toNat < y.toNat
            · rw [if_pos h3] at hbc
              exact absurd hbc (by simp)
            · rw [if_pos (by omega)]
        · rw [if_neg h1] at hab
          by_cases h2 : y.toNat < x.toNat
          · rw [if_pos h2] at hab
            exact absurd hab (by simp)
          · rw [if_neg h2] at hab
            by_cases h3 : y.toNat < z.toNat
            · rw [if_pos (by omega)]
            · rw [if_neg h3] at hbc
              by_cases h4 : z.toNat < y.toNat
              · rw [if_pos h4] at hbc
                exact absurd hbc (by simp)
              · rw [if_neg h4] at hbc
                rw [if_neg (by omega), if_neg (by omega)]
                exact ih hab hbc

/-- Python string `<` is irreflexive. -/
theorem strLt_irrefl (s : String) : strLt s s = false :=
  charsLt_irrefl s.data

/-- Two strings neither of which is below the other are equal. -/
theorem eq_of_strLt_false {a b : String}
    (hab : strLt a b = false) (hba : strLt b a = false) : a = b :=
  String.ext (eq_of_charsLt_false hab hba)

/-- Python string `<` is transitive. -/
theorem strLt_trans {a b c : String}
    (hab : strLt a b = true) (hbc : strLt b c = true) :
    strLt a c = true :=
  charsLt_trans hab hbc

/-- Head/tail characterisation of the lexicographic row order. -/
theorem lexLe_cons_iff {x y : String} {as bs : List String} :
    lexLe (x :: as) (y :: bs) = true
      ↔ (strLt x y = true ∨ (x = y ∧ lexLe as bs = true)) := by
  cases h1 : strLt x y with
  | true =>
    have hlhs : lexLe (x :: as) (y :: bs) = true := by
      simp [lexLe, h1]
    rw [hlhs]
    exact ⟨fun _ => Or.inl rfl, fun _ => rfl⟩
  | false =>
    cases h2 : strLt y x with
    | true =>
      have hlhs : lexLe (x :: as) (y :: bs) = false := by
        simp [lexLe, h1, h2]
      rw [hlhs]
      constructor
      · intro h
        exact absurd h (by simp)
      · rintro (hlt | ⟨rfl, _⟩)
        · exact absurd hlt (by simp)
        · rw [strLt_irrefl] at h2
          exact absurd h2 (by simp)
    | false =>
      have hxy : x = y := eq_of_strLt_false h1 h2
      have hlhs : lexLe (x :: as) (y :: bs) = lexLe as bs := by
        simp [lexLe, h1, h2]
      rw [hlhs]
      constructor
      · intro h
        exact Or.inr ⟨hxy, h⟩
      · rintro (hlt | ⟨_, h⟩)
        · exact absurd hlt (by simp)
        · exact h

/-- The lexicographic row order is reflexive. -/
theorem lexLe_refl : ∀ a : List String, lexLe a a = true := by
  intro a
  induction a with
  | nil => rfl
  | cons x xs ih => exact lexLe_cons_iff.mpr (Or.inr ⟨rfl, ih⟩)

/-- The lexicographic row order is total. -/
theorem lexLe_total : ∀ a b : List String,
    (lexLe a b || lexLe b a) = true := by
  intro a
  induction a with
  | nil => intro b; simp [lexLe]
  | cons x xs ih =>
    intro b
    cases b with
    | nil => simp [lexLe]
    | cons y ys =>
      by_cases h1 : strLt x y = true
      · rw [Bool.or_eq_true]
        exact Or.inl (lexLe_cons_iff.mpr (Or.inl h1))
      · have h1' : strLt x y = false := by simpa using h1
        by_cases h2 : strLt y x = true
        · rw [Bool.or_eq_true]
          exact Or.inr (lexLe_cons_iff.mpr (Or.inl h2))
        · have h2' : strLt y x = false := by simpa using h2
          have hxy : x = y := eq_of_strLt_false h1' h2'
          rcases Bool.or_eq_true _ _ |>.mp (ih ys) with h | h
          · rw [Bool.or_eq_true]
            exact Or.inl (lexLe_cons_iff.mpr (Or.inr ⟨hxy, h⟩))
          · rw [Bool.or_eq_true]
            exact Or.inr (lexLe_cons_iff.mpr (Or.inr ⟨hxy.symm, h⟩))

/-- The lexicographic row order is transitive. -/
theorem lexLe_trans : ∀ a b c : List String,
    lexLe a b = true → lexLe b c = true → lexLe a c = true := by
  intro a
  induction a with
  | nil => intro b c _ _; simp [lexLe]
  | cons x xs ih =>
    intro b c hab hbc
    cases b with
    | nil => simp [lexLe] at hab
    | cons y ys =>
      cases c with
      | nil => simp [lexLe] at hbc
      | cons z zs =>
        rcases lexLe_cons_iff.mp hab with h1 | h1
        · rcases lexLe_cons_iff.mp hbc with h2 | h2
          · exact lexLe_cons_iff.mpr (Or.inl (strLt_trans h1 h2))
          · refine lexLe_cons_iff.mpr (Or.inl ?_)
            rw [← h2.1]
            exact h1
        · rcases lexLe_cons_iff.mp hbc with h2 | h2
          · refine lexLe_cons_iff.mpr (Or.inl ?_)
            rw [h1.1]
            exact h2
          · exact lexLe_cons_iff.mpr
              (Or.inr ⟨h1.1.trans h2.1, ih ys zs h1.2 h2.2⟩)

/-- Sandwich property of the lexicographic order: anything between two rows
that agree on their first `n` key columns agrees with them there too. -/
theorem lexLe_take_sandwich : ∀ (n : Nat) (a b c : List String),
    lexLe a b = true → lexLe b c = true → a.take n = c.take n →
    b.take n = c.take n := by
  intro n
  induction n with
  | zero => intro a b c _ _ _; simp
  | succ n ih =>
    intro a b c hab hbc hac
    cases a with
    | nil =>
      cases c with
      | nil =>
        cases b with
        | nil => rfl
        | cons y ys => simp [lexLe] at hbc
      | cons z zs => simp at hac
    | cons x xs =>
      cases c with
      | nil => simp at hac
      | cons z zs =>
        simp only [List.take_succ_cons, List.cons.injEq] at hac
        obtain ⟨rfl, htail⟩ := hac
        cases b with
        | nil => simp [lexLe] at hab
        | cons y ys =>
          rcases lexLe_cons_iff.mp hab with h1 | h1
          · rcases lexLe_cons_iff.mp hbc with h2 | h2
            · have hxx := strLt_trans h1 h2
              rw [strLt_irrefl] at hxx
              exact absurd hxx (by simp)
            · rw [h2.1] at h1
              rw [strLt_irrefl] at h1
              exact absurd h1 (by simp)
          · rcases lexLe_cons_iff.mp hbc with h2 | h2
            · rw [← h1.1] at h2
              rw [strLt_irrefl] at h2
              exact absurd h2 (by simp)
            · simp only [List.take_succ_cons, List.cons.injEq]
              exact ⟨h2.1, ih xs ys zs h1.2 h2.2 htail⟩

/-- C7 counterexample: in the spec's example scenario the CLI's sorted
table puts the Success row first — its result string `"IOS 15.2"` compares
below `"⌛ Timeout"` by code point (`I` is U+0049, `⌛` is U+231B) — so the
TimedOut row is not shown before the Success row, whichever order the two
rows arrived in. -/
theorem c7_counterexample :
    sortRows [r1Row, r2Row] = [r1Row, r2Row]
    ∧ sortRows [r2Row, r1Row] = [r1Row, r2Row]
    ∧ r1Row.result = "IOS 15.2"
    ∧ r2Row.result = cliTimeoutStr
    ∧ r1Row ≠ r2Row
    ∧ strLt "IOS 15.2" cliTimeoutStr = true := by
  have h12 : rowLe r1Row r2Row = true := by decide
  have h21 : rowLe r2Row r1Row = false := by decide
  refine ⟨?_, ?_, rfl, rfl, by decide, by decide⟩
  · simp [sortRows, List.mergeSort, List.merge, h12]
  · simp [sortRows, List.mergeSort, List.merge, h12, h21]

/-- C7 (amended): the renderer sorts ascending lexicographically by the key
(outcome-as-text, source, group, label, hostname, ip, device_type); in the
example scenario the Success row `"IOS 15.2"` precedes the TimedOut row
`"⌛ Timeout"` in code-point order, and the source and group columns are
dropped from the display because a single source and a single group were
queried. -/
theorem c7_sort_and_drop :
    (∀ rows : List Row,
      List.Sorted (fun a b => rowLe a b = true) (sortRows rows)
      ∧ (sortRows rows).Perm rows)
    ∧ sortRows [r1Row, r2Row] = [r1Row, r2Row]
    ∧ r1Row.result = "IOS 15.2"
    ∧ r2Row.result = cliTimeoutStr
    ∧ (∀ n, "File" ∉ headerCells 1 n)
    ∧ (∀ n, "Group" ∉ headerCells n 1) := by
  have h12 : rowLe r1Row r2Row = true := by decide
  refine ⟨?_, ?_, rfl, rfl, ?_, ?_⟩
  · intro rows
    constructor
    · exact @List.sorted_mergeSort Row rowLe
        (fun a b c hab hbc =>
          lexLe_trans (sortKey a) (sortKey b) (sortKey c) hab hbc)
        (fun a b => lexLe_total (sortKey a) (sortKey b)) rows
    · exact List.mergeSort_perm rows rowLe
  · simp [sortRows, List.mergeSort, List.merge, h12]
  · intro n
    by_cases h : (n == 1) = true
    · simp [headerCells, h]
    · have h' : (n == 1) = false := by simpa using h
      simp [headerCells, h']
  · intro n
    by_cases h : (n == 1) = true
    · simp [headerCells, h]
    · have h' : (n == 1) = false := by simpa using h
      simp [headerCells, h']

/-- Witness for C7: the scenario rows, fed in reverse order, sort back into
Success-then-TimedOut order, and both narrow columns are dropped for the
single-source single-group run. -/
theorem c7_witness :
    List.Sorted (fun a b => rowLe a b = true) (sortRows [r2Row, r1Row])
    ∧ (sortRows [r2Row, r1Row]).Perm [r2Row, r1Row]
    ∧ "File" ∉ headerCells 1 1
    ∧ "Group" ∉ headerCells 1 1 := by
  have h := c7_sort_and_drop
  exact ⟨(h.1 [r2Row, r1Row]).1, (h.1 [r2Row, r1Row]).2,
    h.2.2.2.2.1 1, h.2.2.2.2.2 1⟩

/-- In a sorted row list, some earlier row agrees with row `j+1` on the
first `n` key columns iff the immediately preceding row does. -/
theorem sorted_take_any_iff (rows : List Row)
    (hs : List.Sorted (fun a b => rowLe a b = true) rows)
    (n j : Nat) (h : j + 1 < rows.length) :
    (∃ p ∈ rows.take (j + 1),
        (sortKey p).take n = (sortKey rows[j + 1]).take n)
      ↔ (sortKey rows[j]).take n = (sortKey rows[j + 1]).take n := by
  have hj : j < rows.length := Nat.lt_of_succ_lt h
  constructor
  · rintro ⟨p, hp, hpe⟩
    rcases List.mem_iff_getElem.mp hp with ⟨k, hk, hkp⟩
    have hkm : k < min (j + 1) rows.length := by
      simpa [List.length_take] using hk
    have hkl : k < rows.length := by omega
    have hkj : k ≤ j := by omega
    have hpk : p = rows[k] := by
      rw [← hkp]
      exact List.getElem_take rows
    have le1 : rowLe rows[k] rows[j] = true := by
      rcases Nat.lt_or_ge k j with hlt | hge
      · have := hs.rel_get_of_lt
          (a := ⟨k, hkl⟩) (b := ⟨j, hj⟩) (Fin.mk_lt_mk.mpr hlt)
        simpa [List.get_eq_getElem] using this
      · have hkeq : k = j := by omega
        subst hkeq
        exact lexLe_refl _
    have le2 : rowLe rows[j] rows[j + 1] = true := by
      have := hs.rel_get_of_lt
        (a := ⟨j, hj⟩) (b := ⟨j + 1, h⟩) (Fin.mk_lt_mk.mpr (by omega))
      simpa [List.get_eq_getElem] using this
    refine lexLe_take_sandwich n (sortKey rows[k]) (sortKey rows[j])
      (sortKey rows[j + 1]) le1 le2 ?_
    rw [← hpk]
    exact hpe
  · intro hpe
    refine ⟨rows[j], ?_, hpe⟩
    refine List.mem_iff_getElem.mpr ⟨j, ?_, ?_⟩
    · rw [List.length_take]
      omega
    · exact List.getElem_take rows

/-- The `Result` masking condition of a sorted table equals "same result as
the immediately preceding row". -/
theorem sorted_mask_result_cond (rows : List Row)
    (hs : List.Sorted (fun a b => rowLe a b = true) rows)
    (j : Nat) (h : j + 1 < rows.length) :
    ((rows.take (j + 1)).any fun p => p.result == rows[j + 1].result)
      = (rows[j].result == rows[j + 1].result) := by
  rw [Bool.eq_iff_iff, List.any_eq_true, beq_iff_eq]
  constructor
  · rintro ⟨p, hp, hpe⟩
    rw [beq_iff_eq] at hpe
    have key := (sorted_take_any_iff rows hs 1 j h).mp
      ⟨p, hp, by simpa [sortKey] using hpe⟩
    simpa [sortKey] using key
  · intro hpe
    rcases (sorted_take_any_iff rows hs 1 j h).mpr
        (by simpa [sortKey] using hpe) with ⟨p, hp, hpe2⟩
    refine ⟨p, hp, ?_⟩
    rw [beq_iff_eq]
    simpa [sortKey] using hpe2

/-- The `File` masking condition of a sorted table equals "same result and
file as the immediately preceding row". -/
theorem sorted_mask_file_cond (rows : List Row)
    (hs : List.Sorted (fun a b => rowLe a b = true) rows)
    (j : Nat) (h : j + 1 < rows.length) :
    ((rows.take (j + 1)).any fun p =>
        p.result == rows[j + 1].result && p.file == rows[j + 1].file)
      = (rows[j].result == rows[j + 1].result
          && rows[j].file == rows[j + 1].file) := by
  rw [Bool.eq_iff_iff, List.any_eq_true]
  constructor
  · rintro ⟨p, hp, hpe⟩
    rw [Bool.and_eq_true, beq_iff_eq, beq_iff_eq] at hpe
    have key := (sorted_take_any_iff rows hs 2 j h).mp
      ⟨p, hp, by simp [sortKey, hpe.1, hpe.2]⟩
    rw [Bool.and_eq_true, beq_iff_eq, beq_iff_eq]
    constructor
    · exact (by simpa [sortKey] using key : _ ∧ _).1
    · exact (by simpa [sortKey] using key : _ ∧ _).2
  · intro hpe
    rw [Bool.and_eq_true, beq_iff_eq, beq_iff_eq] at hpe
    rcases (sorted_take_any_iff rows hs 2 j h).mpr
        (by simp [sortKey, hpe.1, hpe.2]) with ⟨p, hp, hpe2⟩
    refine ⟨p, hp, ?_⟩
    rw [Bool.and_eq_true, beq_iff_eq, beq_iff_eq]
    constructor
    · exact (by simpa [sortKey] using hpe2 : _ ∧ _).1
    · exact (by simpa [sortKey] using hpe2 : _ ∧ _).2

/-- The `Group` masking condition of a sorted table equals "same result,
file and group as the immediately preceding row". -/
theorem sorted_mask_group_cond (rows : List Row)
    (hs : List.Sorted (fun a b => rowLe a b = true) rows)
    (j : Nat) (h : j + 1 < rows.length) :
    ((rows.take (j + 1)).any fun p =>
        p.result == rows[j + 1].result && p.file == rows[j + 1].file
          && p.group == rows[j + 1].group)
      = (rows[j].result == rows[j + 1].result
          && rows[j].file == rows[j + 1].file
          && rows[j].group == rows[j + 1].group) := by
  rw [Bool.eq_iff_iff, List.any_eq_true]
  constructor
  · rintro ⟨p, hp, hpe⟩
    rw [Bool.and_eq_true, Bool.and_eq_true, beq_iff_eq, beq_iff_eq,
      beq_iff_eq] at hpe
    have key := (sorted_take_any_iff rows hs 3 j h).mp
      ⟨p, hp, by simp [sortKey, hpe.1.1, hpe.1.2, hpe.2]⟩
    rw [Bool.and_eq_true, Bool.and_eq_true, beq_iff_eq, beq_iff_eq,
      beq_iff_eq]
    have key' : rows[j].result = rows[j + 1].result
        ∧ rows[j].file = rows[j + 1].file
        ∧ rows[j].group = rows[j + 1].group := by
      simpa [sortKey] using key
    exact ⟨⟨key'.1, key'.2.1⟩, key'.2.2⟩
  · intro hpe
    rw [Bool.and_eq_true, Bool.and_eq_true, beq_iff_eq, beq_iff_eq,
      beq_iff_eq] at hpe
    rcases (sorted_take_any_iff rows hs 3 j h).mpr
        (by simp [sortKey, hpe.1.1, hpe.1.2, hpe.2]) with ⟨p, hp, hpe2⟩
    refine ⟨p, hp, ?_⟩
    rw [Bool.and_eq_true, Bool.and_eq_true, beq_iff_eq, beq_iff_eq,
      beq_iff_eq]
    have key' : p.result = rows[j + 1].result
        ∧ p.file = rows[j + 1].file ∧ p.group = rows[j + 1].group := by
      simpa [sortKey] using hpe2
    exact ⟨⟨key'.1, key'.2.1⟩, key'.2.2⟩

/-- C8: on a sorted table, the code's groupby/duplicated masking transform
coincides exactly with the spec's rule — a leading-prefix cell (outcome,
then source, then group) is masked iff every column up to and including it
is identical to the immediately preceding sorted row, and the first row is
never masked; the export writers serialise the sorted unmasked frame, so
the masking is purely cosmetic. -/
theorem c8_dedup_masking (rows : List Row)
    (hs : List.Sorted (fun a b => rowLe a b = true) rows) :
    cleanRows rows = adjacentMaskRows rows
    ∧ ∀ rs : List Row, exportRows rs = sortRows rs := by
  refine ⟨?_, fun _ => rfl⟩
  unfold cleanRows adjacentMaskRows
  refine List.map_congr_left ?_
  rintro ⟨i, r⟩ hir
  obtain ⟨hi, hr⟩ := List.mem_enum hir
  cases i with
  | zero => dsimp only; simp
  | succ j =>
    have hj : j < rows.length := Nat.lt_of_succ_lt hi
    have hq : rows[j + 1 - 1]? = some rows[j] := by
      have hred : j + 1 - 1 = j := rfl
      rw [hred]
      exact List.getElem?_eq_getElem hj
    rw [hr]
    dsimp only
    simp only [hq]
    simp only [sorted_mask_result_cond rows hs j hi,
      sorted_mask_file_cond rows hs j hi,
      sorted_mask_group_cond rows hs j hi]

/-- Witness for C8 on a concrete sorted two-row table sharing the outcome:
the second row's outcome cell is masked and the exported rows stay
unmasked. -/
theorem c8_witness :
    cleanRows [r1Row, { r1Row with label := "r9" }]
      = adjacentMaskRows [r1Row, { r1Row with label := "r9" }]
    ∧ exportRows [r2Row, r1Row] = sortRows [r2Row, r1Row] := by
  have h := c8_dedup_masking [r1Row, { r1Row with label := "r9" }]
    (by
      constructor
      · intro b hb
        rw [List.mem_singleton.mp hb]
        decide
      · exact List.sorted_singleton _)
  exact ⟨h.1, h.2 [r2Row, r1Row]⟩

end Netquery
